import Mathlib

/-!
# Verification development for `fristonio/ping`

A shallow embedding of `pkg/ping/stats.go` and `pkg/ping/ping.go`.

* Go `int`, `int64` and `time.Duration` values are modelled as `Int` with an explicit
  two's-complement wrap (`wrapInt`) after every arithmetic operation of the source.
* `Stats.Print` only logs; the model returns the values it hands to the logger, or
  `none` when the Go runtime panics before anything is logged.
* The network, the clock and the scheduler are inputs: a cycle of `Run` is driven by
  the list of outcomes the socket operations produce.
-/

namespace Ping

/-! ## Machine integers -/

/-- Two's-complement wrap-around of a signed 64-bit integer (Go `int`, `int64`,
`time.Duration`). -/
def wrapInt (x : Int) : Int :=
  (x + 9223372036854775808) % 18446744073709551616 - 9223372036854775808

/-- Go integer division on signed 64-bit operands, for a non-zero divisor: the quotient
is truncated toward zero and wraps in the single overflowing case. -/
def goDiv (a b : Int) : Int := wrapInt (Int.tdiv a b)

/-- The constant `time.Nanosecond`. -/
def Nanosecond : Int := 1

/-- The constant `time.Millisecond`. -/
def Millisecond : Int := 1000000

/-- The constant `time.Second`. -/
def Second : Int := 1000000000

/-- The method `Duration.Milliseconds`: `int64(d) / 1e6`. -/
def Milliseconds (d : Int) : Int := goDiv d 1000000

/-! ## `stats.go` -/

/-- The struct `Stats`. -/
structure Stats where
  host : String
  rtts : List Int
  rxPackets : Int
  txPackets : Int
deriving DecidableEq, Repr

/-- The constructor `NewStats`: both counters take Go's zero value. -/
def NewStats (host : String) : Stats :=
  { host := host, rtts := [], rxPackets := 0, txPackets := 0 }

/-- The method `IncrementTxPackets`: `p.txPackets++`. -/
def Stats.IncrementTxPackets (p : Stats) : Stats :=
  { p with txPackets := wrapInt (p.txPackets + 1) }

/-- The method `IncrementRxPackets`: `p.rxPackets++`. -/
def Stats.IncrementRxPackets (p : Stats) : Stats :=
  { p with rxPackets := wrapInt (p.rxPackets + 1) }

/-- The method `AddRTT`: `p.rtts = append(p.rtts, t)`. -/
def Stats.AddRTT (p : Stats) (t : Int) : Stats :=
  { p with rtts := p.rtts ++ [t] }

/-- The three local variables of `Print` that the loop over `p.rtts` updates. -/
structure PrintAcc where
  totalTime : Int
  maxTime : Int
  minTime : Int
deriving DecidableEq, Repr

/-- One iteration of the `for _, t := range p.rtts` loop of `Print`. -/
def printStep (acc : PrintAcc) (t : Int) : PrintAcc :=
  let totalTime := wrapInt (acc.totalTime + t)
  let maxTime := if t > acc.maxTime then t else acc.maxTime
  let minTime := if t < acc.minTime then t else acc.minTime
  { totalTime := totalTime, maxTime := maxTime, minTime := minTime }

/-- The values of the locals before the loop: `totalTime` and `minTime` are zero,
`maxTime = time.Nanosecond`, and `minTime = p.rtts[0]` when there is a first element. -/
def printInit (rtts : List Int) : PrintAcc :=
  { totalTime := 0
    maxTime := Nanosecond
    minTime := match rtts with
      | [] => 0
      | t :: _ => t }

/-- The whole loop of `Print`. -/
def printLoop (rtts : List Int) : PrintAcc :=
  rtts.foldl printStep (printInit rtts)

/-- The arguments `Print` passes to its three log calls.  The average is logged as
`float64(avgMillis) / float64(avgCount)`; the two integer operands are kept. -/
structure Report where
  host : String
  txPackets : Int
  rxPackets : Int
  percentageLoss : Int
  totalTime : Int
  minTime : Int
  maxTime : Int
  avgMillis : Int
  avgCount : Int
deriving DecidableEq, Repr

/-- The method `Print`.  The integer division by `p.txPackets` comes before the first
log call, so with `txPackets = 0` the Go runtime panics (integer divide by zero) and
nothing is reported: `none`. -/
def Stats.Print (p : Stats) : Option Report :=
  let acc := printLoop p.rtts
  if p.txPackets = 0 then none
  else
    let percentageLoss :=
      wrapInt (goDiv (wrapInt (p.txPackets - p.rxPackets)) p.txPackets * 100)
    some
      { host := p.host
        txPackets := p.txPackets
        rxPackets := p.rxPackets
        percentageLoss := percentageLoss
        totalTime := acc.totalTime
        minTime := acc.minTime
        maxTime := acc.maxTime
        avgMillis := Milliseconds acc.totalTime
        avgCount := wrapInt p.rtts.length }

/-- The value in milliseconds of the quotient `float64(avgMillis) / float64(avgCount)`
that the last log call prints, in the cases where floating-point arithmetic computes it
without rounding: the divisor is not zero, both operands are below 2^53 in absolute value
(their conversions to `float64` are exact) and the quotient is a whole number (the IEEE
division returns it exactly).  `none` in every other case, a rounded quotient or not a
number, which this development does not evaluate. -/
def Report.avgMs (r : Report) : Option Int :=
  if r.avgCount ≠ 0 ∧ -9007199254740992 < r.avgMillis ∧ r.avgMillis < 9007199254740992 ∧
      -9007199254740992 < r.avgCount ∧ r.avgCount < 9007199254740992 ∧
      r.avgMillis % r.avgCount = 0 then
    some (r.avgMillis / r.avgCount)
  else none

/-- The exact loss percentage `(tx - rx) / tx * 100` of a pair of counters. -/
def exactLoss (tx rx : Int) : ℚ := ((tx : ℚ) - (rx : ℚ)) / (tx : ℚ) * 100

/-! ## `ping.go` -/

/-- Modelled from the spec: the interface `icmp.Type` of the library
`golang.org/x/net/icmp`, whose source is not in the repository.  Its values are an
`ipv4.ICMPType` or an `ipv6.ICMPType`, each a one-byte number ("protocol-family-specific
encoding"); Go compares two interface values by dynamic type and by value. -/
inductive ICMPType where
  | ipv4 (t : Nat)
  | ipv6 (t : Nat)
deriving DecidableEq, Repr

/-- Modelled from the spec: the library constant `ipv4.ICMPTypeEchoReply` (ICMP type 0). -/
def ipv4ICMPTypeEchoReply : ICMPType := .ipv4 0

/-- Modelled from the spec: the library constant `ipv6.ICMPTypeEchoReply` (ICMPv6
type 129). -/
def ipv6ICMPTypeEchoReply : ICMPType := .ipv6 129

/-- Modelled from the spec: the library interface `icmp.MessageBody`, either an
`*icmp.Echo` with its identifier and sequence number or a body of another kind. -/
inductive MessageBody where
  | echo (ID : Int) (Seq : Int)
  | other
deriving DecidableEq, Repr

/-- Modelled from the spec: the fields of the library struct `icmp.Message` that
`recvIcmp` reads. -/
structure Message where
  msgType : ICMPType
  body : MessageBody
deriving DecidableEq, Repr

/-- The content of the buffer that `ReadFrom` filled, as `icmp.ParseMessage` sees it:
the type byte of the header and the body that the library parses out of the rest
(`none` when the library rejects the buffer). -/
structure Datagram where
  typeByte : Nat
  body : Option MessageBody
deriving DecidableEq, Repr

/-- Modelled from the spec: the library function `icmp.ParseMessage`, whose source is
not in the repository.  "Protocol numbers used for parsing: 1 for IPv4 ICMP, 58 for IPv6
ICMPv6": the type of the parsed message belongs to the family of the protocol number. -/
def ParseMessage (proto : Int) (d : Datagram) : Option Message :=
  match d.body with
  | none => none
  | some b =>
    if proto = 1 then some { msgType := .ipv4 d.typeByte, body := b }
    else if proto = 58 then some { msgType := .ipv6 d.typeByte, body := b }
    else none

/-- The largest `time.Duration`. -/
def maxDuration : Int := 9223372036854775807

/-- The smallest `time.Duration`. -/
def minDuration : Int := -9223372036854775808

/-- The standard-library call `time.Since(timer)` evaluated when the monotonic clock
reads `now` (both in nanoseconds): the difference, saturated to the range of
`time.Duration`. -/
def Since (timer now : Int) : Int :=
  if now - timer > maxDuration then maxDuration
  else if now - timer < minDuration then minDuration
  else now - timer

/-- The struct `Pinger`, without the fields that only hold operating-system resources
(`ipaddr`, `conn`, the `shutdown` channel) and without the unused `Size`. -/
structure Pinger where
  isIPV6 : Bool
  identifier : Int
  seqNum : Int
  maxRTT : Int
  timer : Int
  stats : Stats
deriving DecidableEq, Repr

/-- The constructor `NewPinger`.  `resolved` is the outcome of `net.ParseIP` and
`net.LookupIP` (`none`: no address, `some v6`: an address, IPv6 or not), `rnd` the value
of `rand.Intn(0xffff)` and `now` the reading of `time.Now()`. -/
def NewPinger (addr : String) (resolved : Option Bool) (rnd now : Int) : Option Pinger :=
  match resolved with
  | none => none
  | some v6 =>
    some
      { isIPV6 := v6
        identifier := rnd
        seqNum := 0
        maxRTT := Second
        timer := now
        stats := NewStats addr }

/-- What one call of `conn.WriteTo` in the send goroutine returns: success, a
`*net.OpError` wrapping `ENOBUFS`, another `*net.OpError`, or an error of another type. -/
inductive WriteOutcome where
  | ok
  | enobufs
  | opError
  | otherError
deriving DecidableEq, Repr

/-- The goroutine that `sendIcmp` starts, run on the outcomes of its successive writes:
an `ENOBUFS` failure loops, every other outcome leaves the loop and
`p.stats.IncrementTxPackets()` follows.  `none`: the outcomes ran out while the loop was
still retrying, so the goroutine has not finished. -/
def sendTask (s : Stats) : List WriteOutcome → Option Stats
  | [] => none
  | .enobufs :: rest => sendTask s rest
  | _ :: _ => some s.IncrementTxPackets

/-- The method `sendIcmp`, called when the clock reads `now`.  `marshalOk` is whether
`Marshal` succeeded; the Boolean of the result is `true` when an error is returned.
The goroutine is run up to its end before `sendIcmp` returns; when it never ends the
statistics stay as they are. -/
def sendIcmp (p : Pinger) (now : Int) (marshalOk : Bool) (writes : List WriteOutcome) :
    Pinger × Bool :=
  let p1 := { p with timer := now }
  if marshalOk then
    match sendTask p1.stats writes with
    | some s => ({ p1 with stats := s }, false)
    | none => (p1, false)
  else (p1, true)

/-- The error of `conn.ReadFrom`: none, a `*net.OpError` that is a timeout, another
`*net.OpError`, or an error of another type. -/
inductive ReadErr where
  | noError
  | opTimeout
  | opError
  | otherError
deriving DecidableEq, Repr

/-- What one iteration of the loop of `recvIcmp` observes: a value waiting on the
`shutdown` channel, or a return of `conn.ReadFrom` with the clock reading `now`. -/
inductive RecvEvent where
  | shutdown
  | read (err : ReadErr) (data : Datagram) (now : Int)
deriving DecidableEq, Repr

/-- The error that `recvIcmp` can return. -/
inductive RecvError where
  | parseError
deriving DecidableEq, Repr

/-- How one iteration of the loop of `recvIcmp` ends: `continue`, or `return err`. -/
inductive IterCtl where
  | cont
  | ret (err : Option RecvError)
deriving DecidableEq, Repr

/-- One iteration of the `for` loop of `recvIcmp`. -/
def recvIter (p : Pinger) : RecvEvent → Pinger × IterCtl
  | .shutdown => (p, .ret none)
  | .read err data now =>
    if err = .opTimeout then (p, .cont)
    else
      let proto : Int := if p.isIPV6 then 58 else 1
      match ParseMessage proto data with
      | none => (p, .ret (some .parseError))
      | some message =>
        if message.msgType ≠ ipv4ICMPTypeEchoReply ∧
            message.msgType ≠ ipv6ICMPTypeEchoReply then (p, .cont)
        else
          match message.body with
          | .echo ID Seq =>
            if ID = p.identifier ∧ Seq = p.seqNum then
              let rtt := Since p.timer now
              ({ p with stats := (p.stats.AddRTT rtt).IncrementRxPackets }, .ret none)
            else (p, .cont)
          | .other => (p, .cont)

/-- How a call of `recvIcmp` ends: it returns, or it stays blocked in `ReadFrom` because
nothing more arrives. -/
inductive RecvResult where
  | returned (err : Option RecvError)
  | blocked
deriving DecidableEq, Repr

/-- The method `recvIcmp`, run on the events its iterations observe. -/
def recvIcmp (p : Pinger) : List RecvEvent → Pinger × RecvResult
  | [] => (p, .blocked)
  | ev :: rest =>
    match recvIter p ev with
    | (q, .ret err) => (q, .returned err)
    | (q, .cont) => recvIcmp q rest

/-- The inputs of one cycle of `Run`: the clock reading at the send, whether `Marshal`
succeeds, the outcomes of the writes and the events `recvIcmp` observes. -/
structure CycleInput where
  sendTime : Int
  marshalOk : Bool
  writes : List WriteOutcome
  recv : List RecvEvent
deriving DecidableEq, Repr

/-- The body of the `case <-ticker.C` branch of `Run`.  The Boolean of the result is
`false` when `recvIcmp` never returns, so that `p.seqNum++` is not reached. -/
def runCycle (p : Pinger) (c : CycleInput) : Pinger × Bool :=
  match sendIcmp p c.sendTime c.marshalOk c.writes with
  | (p1, true) => ({ p1 with seqNum := wrapInt (p1.seqNum + 1) }, true)
  | (p1, false) =>
    match recvIcmp p1 c.recv with
    | (p2, .returned _) => ({ p2 with seqNum := wrapInt (p2.seqNum + 1) }, true)
    | (p2, .blocked) => (p2, false)

/-- What the `select` of `Run` receives: the shutdown signal or a tick. -/
inductive RunEvent where
  | shutdown
  | tick (c : CycleInput)
deriving DecidableEq, Repr

/-- The `for` loop of `Run`. -/
def runLoop (p : Pinger) : List RunEvent → Pinger
  | [] => p
  | .shutdown :: _ => p
  | .tick c :: rest =>
    match runCycle p c with
    | (q, true) => runLoop q rest
    | (q, false) => q

/-- The method `Run`; `listenOk` is whether `setupConnection` succeeded. -/
def Run (p : Pinger) (listenOk : Bool) (evs : List RunEvent) : Pinger :=
  if listenOk then runLoop p evs else p

/-! ## Vocabulary of the statements -/

/-- The echo-reply type of a protocol family: `ipv6.ICMPTypeEchoReply` for IPv6,
`ipv4.ICMPTypeEchoReply` for IPv4. -/
def echoReplyType (isIPV6 : Bool) : ICMPType :=
  if isIPV6 then ipv6ICMPTypeEchoReply else ipv4ICMPTypeEchoReply

/-- The session after `recvIcmp` accepted a reply when the clock read `now`: the RTT is
appended and the received count incremented. -/
def accepted (p : Pinger) (now : Int) : Pinger :=
  { p with stats := (p.stats.AddRTT (Since p.timer now)).IncrementRxPackets }

/-- Modelled from the spec: the sequence number that an echo message carries on the wire
("sequence number (16-bit)"), the low 16 bits of the `Seq` handed to the library. -/
def wireSeq (seq : Int) : Int := seq % 65536

/-- An IPv4 echo reply with the given identifier and sequence number, as read from the
socket without error when the clock reads `now`. -/
def echoReplyEvent (ID Seq now : Int) : RecvEvent :=
  .read .noError { typeByte := 0, body := some (.echo ID Seq) } now

/-- A cycle of an IPv4 session in which the request is written at the first attempt and
the peer answers one millisecond later with the identifier `ID` and the 16-bit sequence
number of the `i`-th request. -/
def answeredCycle (ID : Int) (i : Nat) : CycleInput :=
  { sendTime := 0
    marshalOk := true
    writes := [.ok]
    recv := [echoReplyEvent ID (wireSeq i) Millisecond] }

/-- The ticks of `n` answered cycles, numbered from `start`. -/
def answeredTicks (ID : Int) (start n : Nat) : List RunEvent :=
  (List.range' start n).map (fun i => RunEvent.tick (answeredCycle ID i))

/-- An IPv4 session as `NewPinger` creates it, with identifier 7 at clock reading 0. -/
def freshSession : Pinger :=
  { isIPV6 := false
    identifier := 7
    seqNum := 0
    maxRTT := Second
    timer := 0
    stats := NewStats "example.com" }

/-- The counters of a `Stats` agree with a history of `sent` increments of the
transmitted count: the received count is the wrapped length of the RTT sequence, the
transmitted count the wrapped number `sent`, and no more RTTs were recorded than packets
were counted as sent. -/
def countersAgree (s : Stats) (sent : Nat) : Prop :=
  s.rxPackets = wrapInt s.rtts.length ∧ s.txPackets = wrapInt sent ∧ s.rtts.length ≤ sent

/-- In every cycle of the run whose request is marshalled, the send goroutine leaves its
retry loop: some write outcome is not `ENOBUFS`. -/
def sendsFinish (evs : List RunEvent) : Prop :=
  ∀ c, RunEvent.tick c ∈ evs → c.marshalOk = true → ∃ w ∈ c.writes, w ≠ WriteOutcome.enobufs

/-- How the specification sorts what one iteration of `recvIcmp` observes: a reply that
is accepted, something that is discarded (a read timeout, a message that is not the
reply), a failed message (one that does not parse), or the shutdown signal. -/
inductive Verdict where
  | accepted
  | discarded
  | failed
  | stopped
deriving DecidableEq, Repr

/-- The verdict of the specification on one event, for a session of the given family,
identifier and current sequence number: a message is the reply when it parses with the
protocol number of the family, has the echo-reply type of the family and an echo body
with the identifier and the sequence number of the session. -/
def verdict (isIPV6 : Bool) (identifier seqNum : Int) : RecvEvent → Verdict
  | .shutdown => .stopped
  | .read err data _ =>
    if err = .opTimeout then .discarded
    else
      match ParseMessage (if isIPV6 then 58 else 1) data with
      | none => .failed
      | some m =>
        if m.msgType = echoReplyType isIPV6 ∧ m.body = .echo identifier seqNum then .accepted
        else .discarded

/-- The number of replies, 0 or 1, that the specification lets one wait for the reply
accept: the events are taken in order up to the first that is not discarded. -/
def acceptedInCall (isIPV6 : Bool) (identifier seqNum : Int) : List RecvEvent → Nat
  | [] => 0
  | ev :: rest =>
    match verdict isIPV6 identifier seqNum ev with
    | .accepted => 1
    | .discarded => acceptedInCall isIPV6 identifier seqNum rest
    | .failed => 0
    | .stopped => 0

/-- Whether the wait for the reply comes to an end: some event is not discarded. -/
def callReturns (isIPV6 : Bool) (identifier seqNum : Int) : List RecvEvent → Bool
  | [] => false
  | ev :: rest =>
    match verdict isIPV6 identifier seqNum ev with
    | .discarded => callReturns isIPV6 identifier seqNum rest
    | _ => true

/-- The number of replies that the specification lets a run accept: the cycles are taken
in order until the shutdown signal, a cycle whose request cannot be marshalled does not
wait for a reply, the sequence number goes up by one after each cycle, and a cycle whose
wait never ends is the last. -/
def acceptedInRun (isIPV6 : Bool) (identifier : Int) : Int → List RunEvent → Nat
  | _, [] => 0
  | _, .shutdown :: _ => 0
  | seqNum, .tick c :: rest =>
    if c.marshalOk then
      acceptedInCall isIPV6 identifier seqNum c.recv +
        (if callReturns isIPV6 identifier seqNum c.recv then
          acceptedInRun isIPV6 identifier (wrapInt (seqNum + 1)) rest
        else 0)
    else acceptedInRun isIPV6 identifier (wrapInt (seqNum + 1)) rest

/-! ## Lemmas on machine integers -/

theorem wrapInt_of_range (x : Int) (h1 : -9223372036854775808 ≤ x)
    (h2 : x < 9223372036854775808) : wrapInt x = x := by
  unfold wrapInt
  omega

theorem wrapInt_idem (x : Int) : wrapInt (wrapInt x) = wrapInt x := by
  unfold wrapInt
  omega

theorem wrapInt_add_left (a b : Int) : wrapInt (wrapInt a + b) = wrapInt (a + b) := by
  unfold wrapInt
  omega

/-! ## Lemmas on the loop of `Print` -/

theorem foldl_printStep_min (l : List Int) (acc : PrintAcc) :
    (l.foldl printStep acc).minTime ≤ acc.minTime ∧
      (∀ t ∈ l, (l.foldl printStep acc).minTime ≤ t) ∧
      ((l.foldl printStep acc).minTime = acc.minTime ∨
        (l.foldl printStep acc).minTime ∈ l) := by
  induction l generalizing acc with
  | nil => simp
  | cons t ts ih =>
    obtain ⟨h1, h2, h3⟩ := ih (printStep acc t)
    have hstep : (printStep acc t).minTime = if t < acc.minTime then t else acc.minTime := rfl
    rw [List.foldl_cons]
    refine ⟨?_, ?_, ?_⟩
    · rw [hstep] at h1
      split at h1 <;> omega
    · intro u hu
      rcases List.mem_cons.mp hu with rfl | hu
      · rw [hstep] at h1
        split at h1 <;> omega
      · exact h2 u hu
    · rcases h3 with h3 | h3
      · rw [hstep] at h3
        split at h3
        · right; rw [h3]; exact List.mem_cons_self _ _
        · left; exact h3
      · right; exact List.mem_cons_of_mem _ h3

theorem foldl_printStep_max (l : List Int) (acc : PrintAcc) :
    acc.maxTime ≤ (l.foldl printStep acc).maxTime ∧
      (∀ t ∈ l, t ≤ (l.foldl printStep acc).maxTime) ∧
      ((l.foldl printStep acc).maxTime = acc.maxTime ∨
        (l.foldl printStep acc).maxTime ∈ l) := by
  induction l generalizing acc with
  | nil => simp
  | cons t ts ih =>
    obtain ⟨h1, h2, h3⟩ := ih (printStep acc t)
    have hstep : (printStep acc t).maxTime = if t > acc.maxTime then t else acc.maxTime := rfl
    rw [List.foldl_cons]
    refine ⟨?_, ?_, ?_⟩
    · rw [hstep] at h1
      split at h1 <;> omega
    · intro u hu
      rcases List.mem_cons.mp hu with rfl | hu
      · rw [hstep] at h1
        split at h1 <;> omega
      · exact h2 u hu
    · rcases h3 with h3 | h3
      · rw [hstep] at h3
        split at h3
        · right; rw [h3]; exact List.mem_cons_self _ _
        · left; exact h3
      · right; exact List.mem_cons_of_mem _ h3

theorem printLoop_minTime (l : List Int) (hne : l ≠ []) :
    (printLoop l).minTime ∈ l ∧ ∀ t ∈ l, (printLoop l).minTime ≤ t := by
  obtain ⟨_, h2, h3⟩ := foldl_printStep_min l (printInit l)
  refine ⟨?_, h2⟩
  rcases h3 with h3 | h3
  · unfold printLoop
    rw [h3]
    cases l with
    | nil => exact absurd rfl hne
    | cons t ts => exact List.mem_cons_self _ _
  · exact h3

theorem printLoop_maxTime (l : List Int) :
    Nanosecond ≤ (printLoop l).maxTime ∧ (∀ t ∈ l, t ≤ (printLoop l).maxTime) ∧
      ((printLoop l).maxTime = Nanosecond ∨ (printLoop l).maxTime ∈ l) :=
  foldl_printStep_max l (printInit l)

theorem Print_of_transmitted (p : Stats) (htx : p.txPackets ≠ 0) :
    p.Print = some
      { host := p.host
        txPackets := p.txPackets
        rxPackets := p.rxPackets
        percentageLoss :=
          wrapInt (goDiv (wrapInt (p.txPackets - p.rxPackets)) p.txPackets * 100)
        totalTime := (printLoop p.rtts).totalTime
        minTime := (printLoop p.rtts).minTime
        maxTime := (printLoop p.rtts).maxTime
        avgMillis := Milliseconds (printLoop p.rtts).totalTime
        avgCount := wrapInt p.rtts.length } := by
  simp only [Stats.Print, if_neg htx]

/-! ## `Stats.Print` -/

/-- C1, evaluated on the code: with 5 packets transmitted and 3 received `Print` reports a
loss of 0 percent, because `(5 - 3) / 5` is an integer division, whereas the real-valued
quotient `(5 - 3) / 5 * 100` is 40. -/
theorem Print_loss_five_three (host : String) (rtts : List Int) :
    (Stats.Print { host := host, rtts := rtts, rxPackets := 3, txPackets := 5 }).map
        (fun r => r.percentageLoss) = some 0 ∧
      exactLoss 5 3 = 40 := by
  constructor
  · rw [Print_of_transmitted _ (show (5 : Int) ≠ 0 by decide)]
    show some (wrapInt (goDiv (wrapInt (5 - 3)) 5 * 100)) = some 0
    decide
  · norm_num [exactLoss]

/-- C2, evaluated on the code: with a transmitted count of 0, and so for a freshly created
`NewStats host`, `Print` divides by zero: the run ends in a runtime panic and nothing is
reported. -/
theorem Print_zero_transmitted (host : String) (rtts : List Int) (rx : Int) :
    Stats.Print { host := host, rtts := rtts, rxPackets := rx, txPackets := 0 } = none ∧
      (NewStats host).Print = none := by
  constructor <;> simp [Stats.Print, NewStats]

/-- C3, refuted as stated: (1) for the recorded sequence `[0]` the reported max is 1ns, not
the largest element 0; (2) for the recorded sequence `[296540ns, 262571ns]` the operands of
the average are 0 milliseconds and 2, so the reported average is 0ms, below the reported
min of 262571ns and not the mean 279555.5ns; (3) with no packet transmitted nothing is
reported. -/
theorem Print_rtt_summary_counterexample :
    (Stats.Print { host := "h", rtts := [0], rxPackets := 1, txPackets := 1 }).map
        (fun r => r.maxTime) = some 1 ∧
      (Stats.Print { host := "h", rtts := [296540, 262571], rxPackets := 2, txPackets := 2 }).map
        (fun r => (r.minTime, r.avgMillis, r.avgCount, r.avgMs)) =
        some (262571, 0, 2, some 0) ∧
      Stats.Print
        { host := "h", rtts := [10000000, 20000000, 30000000], rxPackets := 3, txPackets := 0 } =
        none := by
  refine ⟨by decide, by decide, by decide⟩

/-- C3, amended: for every non-empty sequence of RTT durations, non-negative ones included,
recorded in a `Stats` with a non-zero transmitted count, `Print` reports as min the
smallest element and as max a value no element exceeds, which is the largest element as
soon as one element is at least 1ns; for 10ms, 20ms, 30ms: min = 10ms, max = 30ms and
avg = 20ms.  Nothing is stated on the average of other sequences. -/
theorem Print_rtt_summary (p : Stats) (hne : p.rtts ≠ []) (htx : p.txPackets ≠ 0) :
    (∃ r, p.Print = some r ∧
      (r.minTime ∈ p.rtts ∧ ∀ t ∈ p.rtts, r.minTime ≤ t) ∧
      ((∀ t ∈ p.rtts, t ≤ r.maxTime) ∧
        ((∃ t ∈ p.rtts, Nanosecond ≤ t) → r.maxTime ∈ p.rtts))) ∧
    (∀ (host : String) (rx tx : Int), tx ≠ 0 →
      ∃ r, Stats.Print
          { host := host, rtts := [10 * Millisecond, 20 * Millisecond, 30 * Millisecond],
            rxPackets := rx, txPackets := tx } = some r ∧
        r.minTime = 10 * Millisecond ∧ r.maxTime = 30 * Millisecond ∧
        r.avgMillis = 60 ∧ r.avgCount = 3 ∧ r.avgMs = some 20) := by
  constructor
  · obtain ⟨hmin1, hmin2⟩ := printLoop_minTime p.rtts hne
    obtain ⟨hmax1, hmax2, hmax3⟩ := printLoop_maxTime p.rtts
    refine ⟨_, Print_of_transmitted p htx, ⟨hmin1, hmin2⟩, ⟨hmax2, ?_⟩⟩
    rintro ⟨t, ht, ht1⟩
    rcases hmax3 with h | h
    · have := hmax2 t ht
      have heq : t = (printLoop p.rtts).maxTime := by omega
      rw [← heq]
      exact ht
    · exact h
  · intro host rx tx htx
    have hloop : printLoop [10 * Millisecond, 20 * Millisecond, 30 * Millisecond] =
        { totalTime := 60000000, maxTime := 30000000, minTime := 10000000 } := by decide
    have hms : Milliseconds 60000000 = 60 := by decide
    have hcount : wrapInt ((3 : Nat) : Int) = 3 := by decide
    refine ⟨_, Print_of_transmitted _ htx, ?_, ?_, ?_, ?_, ?_⟩
    · simp only [hloop, Millisecond]
      decide
    · simp only [hloop, Millisecond]
      decide
    · simp only [hloop, hms]
    · simp only [List.length_cons, List.length_nil]
      exact hcount
    · simp only [Report.avgMs, hloop, hms, List.length_cons, List.length_nil]
      decide

/-- C3, amended, at a concrete input: the recorded sequence 10ms, 20ms, 30ms with three
packets transmitted and received. -/
theorem Print_rtt_summary_witness :
    ∃ r, Stats.Print
        { host := "h", rtts := [10000000, 20000000, 30000000], rxPackets := 3, txPackets := 3 } =
        some r ∧
      (r.minTime ∈ [10000000, 20000000, 30000000] ∧
        ∀ t ∈ [10000000, 20000000, 30000000], r.minTime ≤ t) ∧
      ((∀ t ∈ [10000000, 20000000, 30000000], t ≤ r.maxTime) ∧
        ((∃ t ∈ [10000000, 20000000, 30000000], Nanosecond ≤ t) →
          r.maxTime ∈ [10000000, 20000000, 30000000])) :=
  (Print_rtt_summary
    { host := "h", rtts := [10000000, 20000000, 30000000], rxPackets := 3, txPackets := 3 }
    (by decide) (by decide)).1

/-- C4, refuted as stated: with no RTT recorded and one packet transmitted, `Print`
reports a max of 1ns (`time.Nanosecond`), which is not the zero duration; with no RTT
recorded and no packet transmitted it reports nothing. -/
theorem Print_no_rtt_counterexample :
    (∃ r, Stats.Print { host := "h", rtts := [], rxPackets := 0, txPackets := 1 } = some r ∧
      r.minTime = 0 ∧ r.maxTime = 1 ∧ r.maxTime ≠ 0) ∧
    Stats.Print { host := "h", rtts := [], rxPackets := 0, txPackets := 0 } = none :=
  ⟨⟨_, rfl, by decide, by decide, by decide⟩, by decide⟩

/-- C4, amended: for every `Stats` in which no RTT was recorded and whose transmitted
count is not zero, `Print` reports the zero duration as min and `time.Nanosecond`, the
value `maxTime` is initialised with, as max. -/
theorem Print_no_rtt (p : Stats) (hrtts : p.rtts = []) (htx : p.txPackets ≠ 0) :
    ∃ r, p.Print = some r ∧ r.minTime = 0 ∧ r.maxTime = Nanosecond := by
  refine ⟨_, Print_of_transmitted p htx, ?_, ?_⟩ <;>
    simp [hrtts, printLoop, printInit]

/-- C4, amended, at a concrete input: five packets transmitted, none received. -/
theorem Print_no_rtt_witness :
    ∃ r, Stats.Print { host := "h", rtts := [], rxPackets := 0, txPackets := 5 } = some r ∧
      r.minTime = 0 ∧ r.maxTime = Nanosecond :=
  Print_no_rtt { host := "h", rtts := [], rxPackets := 0, txPackets := 5 } rfl (by decide)

/-! ## Lemmas on `sendIcmp` and `recvIcmp` -/

theorem sendTask_cases (s : Stats) (ws : List WriteOutcome) :
    sendTask s ws = none ∨ sendTask s ws = some s.IncrementTxPackets := by
  induction ws with
  | nil => left; rfl
  | cons w ws ih => cases w <;> simp [sendTask, ih]

theorem sendTask_retries (s : Stats) (k : Nat) (ws : List WriteOutcome) :
    sendTask s (List.replicate k WriteOutcome.enobufs ++ ws) = sendTask s ws := by
  induction k with
  | zero => simp
  | succ k ih => simpa [List.replicate_succ, sendTask] using ih

theorem sendTask_of_ends (s : Stats) (ws : List WriteOutcome)
    (h : ∃ w ∈ ws, w ≠ WriteOutcome.enobufs) :
    sendTask s ws = some s.IncrementTxPackets := by
  induction ws with
  | nil => simp at h
  | cons w ws ih =>
    cases w with
    | enobufs =>
      simp only [sendTask]
      apply ih
      obtain ⟨w, hw, hne⟩ := h
      rcases List.mem_cons.mp hw with rfl | hw
      · exact absurd rfl hne
      · exact ⟨w, hw, hne⟩
    | ok => rfl
    | opError => rfl
    | otherError => rfl

theorem recvIter_cases (p : Pinger) (ev : RecvEvent) :
    (∃ c, recvIter p ev = (p, c)) ∨
      (∃ now, recvIter p ev = (accepted p now, IterCtl.ret none)) := by
  cases ev with
  | shutdown => left; exact ⟨_, rfl⟩
  | read err data now =>
    simp only [recvIter]
    split
    · left; exact ⟨_, rfl⟩
    · split
      · left; exact ⟨_, rfl⟩
      · split
        · left; exact ⟨_, rfl⟩
        · split
          · split
            · right; exact ⟨now, rfl⟩
            · left; exact ⟨_, rfl⟩
          · left; exact ⟨_, rfl⟩

theorem recvIcmp_cases (p : Pinger) (evs : List RecvEvent) :
    (∃ r, recvIcmp p evs = (p, r)) ∨
      (∃ now, recvIcmp p evs = (accepted p now, RecvResult.returned none)) := by
  induction evs with
  | nil => left; exact ⟨_, rfl⟩
  | cons ev rest ih =>
    rcases recvIter_cases p ev with ⟨c, hc⟩ | ⟨now, hnow⟩
    · cases c with
      | cont =>
        simp only [recvIcmp, hc]
        exact ih
      | ret err =>
        left
        simp only [recvIcmp, hc]
        exact ⟨_, rfl⟩
    · right
      simp only [recvIcmp, hnow]
      exact ⟨now, rfl⟩

/-! ## Matching of echo replies -/

theorem ParseMessage_family (isIPV6 : Bool) (d : Datagram) (m : Message)
    (h : ParseMessage (if isIPV6 then 58 else 1) d = some m) :
    d.body = some m.body ∧
      m.msgType = if isIPV6 then ICMPType.ipv6 d.typeByte else ICMPType.ipv4 d.typeByte := by
  unfold ParseMessage at h
  cases hb : d.body with
  | none => simp [hb] at h
  | some b =>
    cases isIPV6 <;> simp [hb] at h <;> subst h <;> simp

/-- C5: when `recvIcmp` has read a datagram (no timeout) and `ParseMessage` returned the
message `m` for the protocol number of the session's family, the iteration accepts it
(the RTT is appended, the received count incremented and `nil` returned) if and only if
`m` has the echo-reply type of the session's family and an echo body whose identifier and
sequence number are those of the session; in every other case, and so whenever the
identifier or the sequence number differs, the loop continues with the session, its
statistics included, unchanged. -/
theorem recvIter_accepts_iff (p : Pinger) (err : ReadErr) (d : Datagram) (now : Int)
    (m : Message) (herr : err ≠ ReadErr.opTimeout)
    (hparse : ParseMessage (if p.isIPV6 then 58 else 1) d = some m) :
    (recvIter p (.read err d now) =
        ({ p with stats := (p.stats.AddRTT (Since p.timer now)).IncrementRxPackets },
          IterCtl.ret none) ↔
      (m.msgType = echoReplyType p.isIPV6 ∧ m.body = .echo p.identifier p.seqNum)) ∧
    (¬ (m.msgType = echoReplyType p.isIPV6 ∧ m.body = .echo p.identifier p.seqNum) →
      recvIter p (.read err d now) = (p, IterCtl.cont)) ∧
    (∀ ID Seq : Int, m.body = .echo ID Seq → ID ≠ p.identifier ∨ Seq ≠ p.seqNum →
      recvIter p (.read err d now) = (p, IterCtl.cont) ∧
        (recvIter p (.read err d now)).1.stats = p.stats) := by
  obtain ⟨hbody, htype⟩ := ParseMessage_family p.isIPV6 d m hparse
  have hstep : recvIter p (.read err d now) =
      if m.msgType = echoReplyType p.isIPV6 ∧ m.body = .echo p.identifier p.seqNum then
        ({ p with stats := (p.stats.AddRTT (Since p.timer now)).IncrementRxPackets },
          IterCtl.ret none)
      else (p, IterCtl.cont) := by
    simp only [recvIter, if_neg herr, hparse]
    cases hv : p.isIPV6 <;> rw [hv] at htype <;> cases hm : m.body <;>
      simp [htype, echoReplyType, ipv4ICMPTypeEchoReply, ipv6ICMPTypeEchoReply]
    all_goals
      split <;> simp_all
  have hne : ∀ q : Pinger, (q, IterCtl.cont) ≠
      (({ p with stats := (p.stats.AddRTT (Since p.timer now)).IncrementRxPackets } : Pinger),
        IterCtl.ret none) := by
    intro q h
    cases (Prod.mk.inj h).2
  refine ⟨?_, ?_, ?_⟩
  · rw [hstep]
    constructor
    · intro h
      by_contra hc
      rw [if_neg hc] at h
      exact hne p h
    · intro h
      rw [if_pos h]
  · intro h
    rw [hstep, if_neg h]
  · intro ID Seq hb hdiff
    have hc : ¬ (m.msgType = echoReplyType p.isIPV6 ∧ m.body = .echo p.identifier p.seqNum) := by
      rintro ⟨_, h2⟩
      rw [hb] at h2
      injection h2 with h3 h4
      rcases hdiff with h | h
      · exact h h3
      · exact h h4
    rw [hstep, if_neg hc]
    exact ⟨rfl, rfl⟩

/-- C5 at a concrete input: the fresh IPv4 session reads an echo reply with its
identifier 7 and its sequence number 0. -/
theorem recvIter_accepts_iff_witness :
    (recvIter freshSession (.read .noError { typeByte := 0, body := some (.echo 7 0) } 5) =
        ({ freshSession with
            stats := (freshSession.stats.AddRTT (Since freshSession.timer 5)).IncrementRxPackets },
          IterCtl.ret none) ↔
      ((⟨.ipv4 0, .echo 7 0⟩ : Message).msgType = echoReplyType freshSession.isIPV6 ∧
        (⟨.ipv4 0, .echo 7 0⟩ : Message).body =
          .echo freshSession.identifier freshSession.seqNum)) ∧
    (¬ ((⟨.ipv4 0, .echo 7 0⟩ : Message).msgType = echoReplyType freshSession.isIPV6 ∧
        (⟨.ipv4 0, .echo 7 0⟩ : Message).body =
          .echo freshSession.identifier freshSession.seqNum) →
      recvIter freshSession (.read .noError { typeByte := 0, body := some (.echo 7 0) } 5) =
        (freshSession, IterCtl.cont)) ∧
    (∀ ID Seq : Int, (⟨.ipv4 0, .echo 7 0⟩ : Message).body = .echo ID Seq →
      ID ≠ freshSession.identifier ∨ Seq ≠ freshSession.seqNum →
      recvIter freshSession (.read .noError { typeByte := 0, body := some (.echo 7 0) } 5) =
          (freshSession, IterCtl.cont) ∧
        (recvIter freshSession
          (.read .noError { typeByte := 0, body := some (.echo 7 0) } 5)).1.stats =
          freshSession.stats) :=
  recvIter_accepts_iff freshSession .noError { typeByte := 0, body := some (.echo 7 0) } 5
    ⟨.ipv4 0, .echo 7 0⟩ (by decide) (by decide)

/-- C7, evaluated on the code: `recvIcmp` never compares the elapsed time with `maxRTT`.
Every echo reply of the session's family with the session's identifier and sequence number
is accepted whatever the clock reads; a session created by `NewPinger` (`maxRTT` of one
second) whose request left at clock reading 0 accepts the reply read two seconds later,
records the RTT of two seconds and counts the packet as received. -/
theorem recvIter_accepts_late_reply :
    (∀ (p : Pinger) (now : Int),
      recvIter p (.read .noError
          { typeByte := if p.isIPV6 then 129 else 0
            body := some (.echo p.identifier p.seqNum) } now) =
        ({ p with stats := (p.stats.AddRTT (Since p.timer now)).IncrementRxPackets },
          IterCtl.ret none)) ∧
    NewPinger "example.com" (some false) 7 0 = some freshSession ∧
    freshSession.maxRTT = Second ∧
    (recvIcmp (sendIcmp freshSession 0 true [.ok]).1 [echoReplyEvent 7 0 (2 * Second)]).1.stats =
      { host := "example.com", rtts := [2 * Second], rxPackets := 1, txPackets := 1 } ∧
    freshSession.maxRTT < 2 * Second := by
  refine ⟨?_, by decide, by decide, by decide, by decide⟩
  intro p now
  cases hv : p.isIPV6 <;>
    simp [recvIter, ParseMessage, hv, ipv4ICMPTypeEchoReply, ipv6ICMPTypeEchoReply]

/-! ## The send task -/

/-- C9, evaluated on the code: a write that ends with a non-retryable error, here a
`*net.OpError` other than `ENOBUFS` on the first attempt and an error of another type on
the third, still increments the transmitted count from 0 to 1, although no packet was
transmitted.  After any number of `ENOBUFS` retries the count is incremented exactly once
when the write succeeds, and just the same when it fails. -/
theorem sendTask_counts_failed_write :
    (sendTask (NewStats "h") [.opError]).map (fun s => s.txPackets) = some 1 ∧
      (sendIcmp freshSession 0 true [.enobufs, .enobufs, .otherError]).1.stats.txPackets = 1 ∧
      (∀ (s : Stats) (k : Nat),
        sendTask s (List.replicate k WriteOutcome.enobufs ++ [.ok]) =
            some { s with txPackets := wrapInt (s.txPackets + 1) } ∧
          sendTask s (List.replicate k WriteOutcome.enobufs ++ [.opError]) =
            some { s with txPackets := wrapInt (s.txPackets + 1) } ∧
          sendTask s (List.replicate k WriteOutcome.enobufs ++ [.otherError]) =
            some { s with txPackets := wrapInt (s.txPackets + 1) }) := by
  refine ⟨by decide, by decide, ?_⟩
  intro s k
  simp only [sendTask_retries]
  exact ⟨rfl, rfl, rfl⟩

/-! ## Invariants of the run loop -/

theorem sendIcmp_fields (p : Pinger) (now : Int) (m : Bool) (ws : List WriteOutcome) :
    (sendIcmp p now m ws).1.seqNum = p.seqNum ∧
      (sendIcmp p now m ws).1.identifier = p.identifier ∧
      (sendIcmp p now m ws).1.isIPV6 = p.isIPV6 := by
  unfold sendIcmp
  cases m
  · exact ⟨rfl, rfl, rfl⟩
  · rcases sendTask_cases p.stats ws with h | h <;> simp [h]

theorem sendIcmp_stats (p : Pinger) (now : Int) (m : Bool) (ws : List WriteOutcome) :
    ((sendIcmp p now m ws).1.stats = p.stats ∨
        (sendIcmp p now m ws).1.stats = p.stats.IncrementTxPackets) ∧
      (m = true → (∃ w ∈ ws, w ≠ WriteOutcome.enobufs) →
        (sendIcmp p now m ws).1.stats = p.stats.IncrementTxPackets) ∧
      (m = false → sendIcmp p now m ws = ({ p with timer := now }, true)) ∧
      (m = true → (sendIcmp p now m ws).2 = false) := by
  unfold sendIcmp
  cases m
  · simp
  · refine ⟨?_, ?_, ?_, ?_⟩
    · rcases sendTask_cases p.stats ws with h | h <;> simp [h]
    · intro _ hw
      simp [sendTask_of_ends p.stats ws hw]
    · intro h
      cases h
    · intro _
      rcases sendTask_cases p.stats ws with h | h <;> simp [h]

theorem runCycle_stats (p : Pinger) (c : CycleInput) :
    ∃ s1 : Stats,
      (s1 = p.stats ∨ s1 = p.stats.IncrementTxPackets) ∧
      (c.marshalOk = true → (∃ w ∈ c.writes, w ≠ WriteOutcome.enobufs) →
        s1 = p.stats.IncrementTxPackets) ∧
      (c.marshalOk = false → s1 = p.stats ∧ (runCycle p c).1.stats = s1) ∧
      ((runCycle p c).1.stats = s1 ∨
        ∃ rtt, (runCycle p c).1.stats = (s1.AddRTT rtt).IncrementRxPackets) := by
  obtain ⟨h1, h2, h3, h4⟩ := sendIcmp_stats p c.sendTime c.marshalOk c.writes
  cases hm : c.marshalOk with
  | false =>
    refine ⟨p.stats, Or.inl rfl, (fun h => by cases h), (fun _ => ⟨rfl, ?_⟩), Or.inl ?_⟩ <;>
      simp [runCycle, h3 hm]
  | true =>
    refine ⟨(sendIcmp p c.sendTime c.marshalOk c.writes).1.stats, h1, (fun _ hw => h2 hm hw),
      (fun h => by cases h), ?_⟩
    have hsend : sendIcmp p c.sendTime c.marshalOk c.writes =
        ((sendIcmp p c.sendTime c.marshalOk c.writes).1, false) :=
      Prod.ext rfl (h4 hm)
    generalize (sendIcmp p c.sendTime c.marshalOk c.writes).1 = p1 at hsend ⊢
    unfold runCycle
    rw [hsend]
    rcases recvIcmp_cases p1 c.recv with ⟨r, hr⟩ | ⟨now, hr⟩
    · left
      cases r <;> simp [hr]
    · right
      exact ⟨Since p1.timer now, by simp [hr, accepted]⟩

theorem countersAgree_cycle (p : Pinger) (c : CycleInput) (sent : Nat)
    (h : countersAgree p.stats sent)
    (hfin : c.marshalOk = true → ∃ w ∈ c.writes, w ≠ WriteOutcome.enobufs) :
    ∃ sent1, sent1 ≤ sent + 1 ∧ countersAgree (runCycle p c).1.stats sent1 := by
  obtain ⟨hrx, htx, hle⟩ := h
  obtain ⟨s1, _, h2, h3, h4⟩ := runCycle_stats p c
  cases hm : c.marshalOk with
  | false =>
    obtain ⟨hs1, hq⟩ := h3 hm
    exact ⟨sent, by omega, by rw [hq, hs1]; exact ⟨hrx, htx, hle⟩⟩
  | true =>
    have hs1 := h2 hm (hfin hm)
    refine ⟨sent + 1, le_refl _, ?_⟩
    rcases h4 with hq | ⟨rtt, hq⟩
    · rw [hq, hs1]
      refine ⟨hrx, ?_, Nat.le_succ_of_le hle⟩
      simp only [Stats.IncrementTxPackets, htx, wrapInt_add_left]
      push_cast
      rfl
    · rw [hq, hs1]
      refine ⟨?_, ?_, ?_⟩
      · simp only [Stats.IncrementRxPackets, Stats.AddRTT, Stats.IncrementTxPackets, hrx,
          wrapInt_add_left, List.length_append, List.length_singleton]
        push_cast
        rfl
      · simp only [Stats.IncrementRxPackets, Stats.AddRTT, Stats.IncrementTxPackets, htx,
          wrapInt_add_left]
        push_cast
        rfl
      · simp only [Stats.IncrementRxPackets, Stats.AddRTT, Stats.IncrementTxPackets,
          List.length_append, List.length_singleton]
        omega

theorem countersAgree_runLoop (evs : List RunEvent) (p : Pinger) (sent : Nat)
    (h : countersAgree p.stats sent) (hfin : sendsFinish evs) :
    ∃ sent1, sent1 ≤ sent + evs.length ∧ countersAgree (runLoop p evs).stats sent1 := by
  induction evs generalizing p sent with
  | nil => exact ⟨sent, by simp, h⟩
  | cons ev rest ih =>
    cases ev with
    | shutdown => exact ⟨sent, by simp, h⟩
    | tick c =>
      obtain ⟨sent1, hle, hc⟩ :=
        countersAgree_cycle p c sent h (hfin c (List.mem_cons_self _ _))
      have hrest : sendsFinish rest := fun d hd => hfin d (List.mem_cons_of_mem _ hd)
      unfold runLoop
      cases hr : runCycle p c with
      | mk q done =>
        rw [hr] at hc
        cases done with
        | false => exact ⟨sent1, by simp only [List.length_cons]; omega, hc⟩
        | true =>
          obtain ⟨sent2, hle2, hc2⟩ := ih q sent1 hc hrest
          exact ⟨sent2, by simp only [List.length_cons]; omega, hc2⟩

theorem rxPackets_cycle (p : Pinger) (c : CycleInput)
    (h : p.stats.rxPackets = wrapInt p.stats.rtts.length) :
    (runCycle p c).1.stats.rxPackets = wrapInt (runCycle p c).1.stats.rtts.length := by
  obtain ⟨s1, h1, _, _, h4⟩ := runCycle_stats p c
  have hs1 : s1.rxPackets = wrapInt s1.rtts.length := by
    rcases h1 with h1 | h1 <;> rw [h1] <;> exact h
  rcases h4 with hq | ⟨rtt, hq⟩
  · rw [hq]
    exact hs1
  · rw [hq]
    simp only [Stats.IncrementRxPackets, Stats.AddRTT, hs1, wrapInt_add_left,
      List.length_append, List.length_singleton]
    push_cast
    rfl

theorem rxPackets_runLoop (evs : List RunEvent) (p : Pinger)
    (h : p.stats.rxPackets = wrapInt p.stats.rtts.length) :
    (runLoop p evs).stats.rxPackets = wrapInt (runLoop p evs).stats.rtts.length := by
  induction evs generalizing p with
  | nil => exact h
  | cons ev rest ih =>
    cases ev with
    | shutdown => exact h
    | tick c =>
      have hc := rxPackets_cycle p c h
      unfold runLoop
      cases hr : runCycle p c with
      | mk q done =>
        rw [hr] at hc
        cases done with
        | false => exact hc
        | true => exact ih q hc

theorem NewPinger_stats (addr : String) (resolved : Option Bool) (rnd now : Int) (p : Pinger)
    (h : NewPinger addr resolved rnd now = some p) :
    p.stats = NewStats addr ∧ p.seqNum = 0 ∧ p.maxRTT = Second := by
  unfold NewPinger at h
  cases resolved with
  | none => simp at h
  | some v6 =>
    simp only [Option.some.injEq] at h
    subst h
    exact ⟨rfl, rfl, rfl⟩

theorem recvIter_seq_mismatch (p : Pinger) (ID Seq now : Int) (h : Seq ≠ p.seqNum) :
    recvIter p (echoReplyEvent ID Seq now) = (p, IterCtl.cont) := by
  cases hv : p.isIPV6 <;>
    simp [recvIter, echoReplyEvent, ParseMessage, hv, h, ipv4ICMPTypeEchoReply,
      ipv6ICMPTypeEchoReply]

theorem runCycle_answered (p : Pinger) (i : Nat) (hv : p.isIPV6 = false)
    (hs : p.seqNum = i) (hi : i < 65536) :
    ∃ q, runCycle p (answeredCycle p.identifier i) = (q, true) ∧ q.isIPV6 = false ∧
      q.identifier = p.identifier ∧ q.seqNum = ((i + 1 : Nat) : Int) := by
  have hw : wireSeq (i : Int) = i := by
    unfold wireSeq
    omega
  have hwrap : wrapInt ((i : Int) + 1) = ((i + 1 : Nat) : Int) := by
    push_cast
    exact wrapInt_of_range _ (by omega) (by omega)
  refine ⟨
    { isIPV6 := p.isIPV6
      identifier := p.identifier
      seqNum := wrapInt (p.seqNum + 1)
      maxRTT := p.maxRTT
      timer := 0
      stats := ((p.stats.IncrementTxPackets).AddRTT (Since 0 Millisecond)).IncrementRxPackets },
    ?_, hv, rfl, by simp only [hs, hwrap]⟩
  simp [runCycle, answeredCycle, sendIcmp, sendTask, recvIcmp, echoReplyEvent, recvIter,
    ParseMessage, hw, hv, hs, ipv4ICMPTypeEchoReply, ipv6ICMPTypeEchoReply]

theorem runLoop_answered (n : Nat) (start : Nat) (p : Pinger) (hv : p.isIPV6 = false)
    (hs : p.seqNum = start) (hle : start + n ≤ 65536) :
    (runLoop p (answeredTicks p.identifier start n)).seqNum = ((start + n : Nat) : Int) ∧
      (runLoop p (answeredTicks p.identifier start n)).isIPV6 = false ∧
      (runLoop p (answeredTicks p.identifier start n)).identifier = p.identifier := by
  induction n generalizing start p with
  | zero => exact ⟨by simpa [answeredTicks, runLoop] using hs, hv, rfl⟩
  | succ n ih =>
    obtain ⟨q, hq, hqv, hqid, hqs⟩ := runCycle_answered p start hv hs (by omega)
    have hticks : answeredTicks p.identifier start (n + 1) =
        RunEvent.tick (answeredCycle p.identifier start) ::
          answeredTicks p.identifier (start + 1) n := by
      simp [answeredTicks, List.range'_succ]
    rw [hticks]
    simp only [runLoop, hq]
    rw [← hqid]
    obtain ⟨h1, h2, h3⟩ := ih (start + 1) q hqv hqs (by omega)
    refine ⟨?_, h2, h3⟩
    rw [h1]
    congr 1
    omega

/-! ## Counters of a run -/

/-- C6, refuted as stated: from `NewStats`, the event sequence made of one `AddRTT` and one
`IncrementRxPackets`, without any `IncrementTxPackets`, leaves a received count of 1 above
a transmitted count of 0. -/
theorem rx_le_tx_counterexample :
    (((NewStats "h").AddRTT 5).IncrementRxPackets).rxPackets = 1 ∧
      (((NewStats "h").AddRTT 5).IncrementRxPackets).txPackets = 0 ∧
      ¬ ((((NewStats "h").AddRTT 5).IncrementRxPackets).rxPackets ≤
        (((NewStats "h").AddRTT 5).IncrementRxPackets).txPackets) := by
  decide

/-- C6, amended: starting from the session `NewPinger` creates, after every run of `Run`
of fewer than 2^63 ticks in which the send goroutine of each cycle has left its retry loop
and counted the packet before `recvIcmp` of that cycle runs, the received count is less
than or equal to the transmitted count. -/
theorem rx_le_tx_of_run (addr : String) (resolved : Option Bool) (rnd now : Int) (p : Pinger)
    (hnew : NewPinger addr resolved rnd now = some p) (listenOk : Bool)
    (evs : List RunEvent) (hfin : sendsFinish evs)
    (hlen : (evs.length : Int) < 9223372036854775808) :
    (Run p listenOk evs).stats.rxPackets ≤ (Run p listenOk evs).stats.txPackets := by
  obtain ⟨hstats, _, _⟩ := NewPinger_stats addr resolved rnd now p hnew
  have h0 : countersAgree p.stats 0 := by
    rw [hstats]
    have hz : (0 : Int) = wrapInt ((0 : Nat) : Int) := by decide
    exact ⟨hz, hz, le_refl _⟩
  unfold Run
  cases listenOk with
  | false =>
    simp only [Bool.false_eq_true, if_false, hstats]
    exact le_refl (0 : Int)
  | true =>
    simp only [if_true]
    obtain ⟨sent, hle, hrx, htx, hlen2⟩ := countersAgree_runLoop evs p 0 h0 hfin
    rw [hrx, htx, wrapInt_of_range _ (by omega) (by omega),
      wrapInt_of_range _ (by omega) (by omega)]
    exact_mod_cast hlen2

/-- C6, amended, at a concrete input: two answered cycles of the fresh session. -/
theorem rx_le_tx_of_run_witness :
    (Run freshSession true
        [.tick (answeredCycle 7 0), .tick (answeredCycle 7 1)]).stats.rxPackets ≤
      (Run freshSession true
        [.tick (answeredCycle 7 0), .tick (answeredCycle 7 1)]).stats.txPackets :=
  rx_le_tx_of_run "example.com" (some false) 7 0 freshSession (by decide) true
    [.tick (answeredCycle 7 0), .tick (answeredCycle 7 1)]
    (by
      intro c hc _
      simp only [List.mem_cons, RunEvent.tick.injEq, List.mem_singleton, List.not_mem_nil,
        or_false] at hc
      rcases hc with rfl | rfl <;> exact ⟨.ok, by simp [answeredCycle], by decide⟩)
    (by decide)

/-! ## Accepted replies of a run -/

theorem recvIter_verdict (q : Pinger) (ev : RecvEvent) :
    (verdict q.isIPV6 q.identifier q.seqNum ev = Verdict.accepted →
        ∃ now, recvIter q ev = (accepted q now, IterCtl.ret none)) ∧
      (verdict q.isIPV6 q.identifier q.seqNum ev = Verdict.discarded →
        recvIter q ev = (q, IterCtl.cont)) ∧
      (verdict q.isIPV6 q.identifier q.seqNum ev = Verdict.failed →
        recvIter q ev = (q, IterCtl.ret (some RecvError.parseError))) ∧
      (verdict q.isIPV6 q.identifier q.seqNum ev = Verdict.stopped →
        recvIter q ev = (q, IterCtl.ret none)) := by
  cases ev with
  | shutdown => simp [verdict, recvIter]
  | read err d now =>
    by_cases herr : err = ReadErr.opTimeout
    · simp [verdict, recvIter, herr]
    · cases hp : ParseMessage (if q.isIPV6 then 58 else 1) d with
      | none => simp [verdict, recvIter, herr, hp]
      | some m =>
        obtain ⟨_, htype⟩ := ParseMessage_family q.isIPV6 d m hp
        have hstep : recvIter q (.read err d now) =
            if m.msgType = echoReplyType q.isIPV6 ∧ m.body = .echo q.identifier q.seqNum then
              (accepted q now, IterCtl.ret none)
            else (q, IterCtl.cont) := by
          simp only [recvIter, if_neg herr, hp, accepted]
          cases hv : q.isIPV6 <;> rw [hv] at htype <;> cases hm : m.body <;>
            simp [htype, echoReplyType, ipv4ICMPTypeEchoReply, ipv6ICMPTypeEchoReply]
          all_goals
            split <;> simp_all
        by_cases hc : m.msgType = echoReplyType q.isIPV6 ∧ m.body = .echo q.identifier q.seqNum
        · simp only [verdict, if_neg herr, hp, if_pos hc, hstep]
          exact ⟨fun _ => ⟨now, rfl⟩, by simp, by simp, by simp⟩
        · simp only [verdict, if_neg herr, hp, if_neg hc, hstep]
          simp

theorem accepted_fields (q : Pinger) (now : Int) :
    (accepted q now).isIPV6 = q.isIPV6 ∧ (accepted q now).identifier = q.identifier ∧
      (accepted q now).seqNum = q.seqNum ∧
      (accepted q now).stats.rtts.length = q.stats.rtts.length + 1 := by
  simp [accepted, Stats.AddRTT, Stats.IncrementRxPackets]

theorem recvIcmp_count (evs : List RecvEvent) (q : Pinger) :
    (recvIcmp q evs).1.isIPV6 = q.isIPV6 ∧
      (recvIcmp q evs).1.identifier = q.identifier ∧
      (recvIcmp q evs).1.seqNum = q.seqNum ∧
      (recvIcmp q evs).1.stats.rtts.length =
        q.stats.rtts.length + acceptedInCall q.isIPV6 q.identifier q.seqNum evs ∧
      ((recvIcmp q evs).2 = RecvResult.blocked ↔
        callReturns q.isIPV6 q.identifier q.seqNum evs = false) := by
  induction evs with
  | nil => simp [recvIcmp, acceptedInCall, callReturns]
  | cons ev rest ih =>
    obtain ⟨ha, hd, hf, hs⟩ := recvIter_verdict q ev
    cases hv : verdict q.isIPV6 q.identifier q.seqNum ev with
    | accepted =>
      obtain ⟨now, hnow⟩ := ha hv
      obtain ⟨h1, h2, h3, h4⟩ := accepted_fields q now
      simp [recvIcmp, hnow, acceptedInCall, callReturns, hv, h1, h2, h3, h4]
    | discarded =>
      simp only [recvIcmp, hd hv, acceptedInCall, callReturns, hv]
      exact ih
    | failed => simp [recvIcmp, hf hv, acceptedInCall, callReturns, hv]
    | stopped => simp [recvIcmp, hs hv, acceptedInCall, callReturns, hv]

theorem sendIcmp_rtts (p : Pinger) (now : Int) (m : Bool) (ws : List WriteOutcome) :
    (sendIcmp p now m ws).1.stats.rtts = p.stats.rtts := by
  rcases (sendIcmp_stats p now m ws).1 with h | h <;> rw [h]
  rfl

theorem runCycle_count (p : Pinger) (c : CycleInput) :
    (runCycle p c).1.isIPV6 = p.isIPV6 ∧
      (runCycle p c).1.identifier = p.identifier ∧
      ((runCycle p c).2 = true → (runCycle p c).1.seqNum = wrapInt (p.seqNum + 1)) ∧
      (runCycle p c).1.stats.rtts.length =
        p.stats.rtts.length +
          (if c.marshalOk then acceptedInCall p.isIPV6 p.identifier p.seqNum c.recv else 0) ∧
      (runCycle p c).2 =
        (if c.marshalOk then callReturns p.isIPV6 p.identifier p.seqNum c.recv else true) := by
  obtain ⟨_, _, h3, h4⟩ := sendIcmp_stats p c.sendTime c.marshalOk c.writes
  obtain ⟨f1, f2, f3⟩ := sendIcmp_fields p c.sendTime c.marshalOk c.writes
  have hr := sendIcmp_rtts p c.sendTime c.marshalOk c.writes
  cases hm : c.marshalOk with
  | false => simp [runCycle, h3 hm]
  | true =>
    have hsend : sendIcmp p c.sendTime c.marshalOk c.writes =
        ((sendIcmp p c.sendTime c.marshalOk c.writes).1, false) :=
      Prod.ext rfl (h4 hm)
    generalize (sendIcmp p c.sendTime c.marshalOk c.writes).1 = p1 at hsend f1 f2 f3 hr
    obtain ⟨g1, g2, g3, g4, g5⟩ := recvIcmp_count c.recv p1
    rw [f1, f2, f3] at g4 g5
    rw [hr] at g4
    unfold runCycle
    rw [hsend]
    cases hres : recvIcmp p1 c.recv with
    | mk p2 r =>
      rw [hres] at g1 g2 g3 g4 g5
      simp only at g1 g2 g3 g4 g5
      cases r with
      | returned e =>
        have hret : callReturns p.isIPV6 p.identifier p.seqNum c.recv = true := by
          cases hcr : callReturns p.isIPV6 p.identifier p.seqNum c.recv with
          | true => rfl
          | false => exact absurd (g5.mpr hcr) (by simp)
        simp [hres, g1, g2, g3, g4, f1, f2, f3, hret]
      | blocked =>
        have hret := g5.mp rfl
        simp [hres, g1, g2, g4, f1, f3, f2, hret]

theorem runLoop_count (evs : List RunEvent) (p : Pinger) :
    (runLoop p evs).stats.rtts.length =
      p.stats.rtts.length + acceptedInRun p.isIPV6 p.identifier p.seqNum evs := by
  induction evs generalizing p with
  | nil => simp [runLoop, acceptedInRun]
  | cons ev rest ih =>
    cases ev with
    | shutdown => simp [runLoop, acceptedInRun]
    | tick c =>
      obtain ⟨h1, h2, h3, h4, h5⟩ := runCycle_count p c
      unfold runLoop
      cases hr : runCycle p c with
      | mk q done =>
        rw [hr] at h1 h2 h3 h4 h5
        simp only at h1 h2 h3 h4 h5
        cases done with
        | true =>
          simp only
          rw [ih q, h1, h2, h3 rfl, h4]
          cases hm : c.marshalOk with
          | false => simp [acceptedInRun, hm]
          | true =>
            rw [hm] at h5
            simp only [if_true] at h5
            simp [acceptedInRun, hm, ← h5]
            omega
        | false =>
          simp only
          rw [h4]
          cases hm : c.marshalOk with
          | false =>
            rw [hm] at h5
            simp at h5
          | true =>
            rw [hm] at h5
            simp only [if_true] at h5
            simp [acceptedInRun, hm, ← h5]

/-- C10: starting from the session `NewPinger` creates, after every run of `Run`, whatever
the cycles and the messages `recvIcmp` reads in them, the length of the recorded RTT
sequence (a Go slice length, below 2^63) equals the received count, and both are the
number of replies accepted in the run.  In one iteration of `recvIcmp` an accepted reply
appends exactly one RTT and adds exactly one to the received count, and nothing else in
the statistics changes; a discarded message, a read timeout, a message that fails to parse
and the shutdown signal leave the session, its statistics included, as it is. -/
theorem rtts_length_eq_rxPackets (addr : String) (resolved : Option Bool) (rnd now : Int)
    (p : Pinger) (hnew : NewPinger addr resolved rnd now = some p) (listenOk : Bool)
    (evs : List RunEvent)
    (hlen : ((Run p listenOk evs).stats.rtts.length : Int) < 9223372036854775808) :
    ((Run p listenOk evs).stats.rtts.length : Int) = (Run p listenOk evs).stats.rxPackets ∧
      (Run p listenOk evs).stats.rtts.length =
        (if listenOk then acceptedInRun p.isIPV6 p.identifier p.seqNum evs else 0) ∧
      ∀ (q : Pinger) (ev : RecvEvent),
        (verdict q.isIPV6 q.identifier q.seqNum ev = Verdict.accepted →
          ∃ rtt, (recvIter q ev).1.stats =
            { q.stats with
              rtts := q.stats.rtts ++ [rtt]
              rxPackets := wrapInt (q.stats.rxPackets + 1) }) ∧
        (verdict q.isIPV6 q.identifier q.seqNum ev ≠ Verdict.accepted →
          (recvIter q ev).1 = q) := by
  obtain ⟨hstats, _, _⟩ := NewPinger_stats addr resolved rnd now p hnew
  have h0 : p.stats.rxPackets = wrapInt p.stats.rtts.length := by
    rw [hstats]
    show (0 : Int) = wrapInt ((0 : Nat) : Int)
    decide
  refine ⟨?_, ?_, ?_⟩
  · have hrun : (Run p listenOk evs).stats.rxPackets =
        wrapInt (Run p listenOk evs).stats.rtts.length := by
      unfold Run
      cases listenOk with
      | false => simpa using h0
      | true => simpa using rxPackets_runLoop evs p h0
    rw [hrun, wrapInt_of_range _ (by omega) hlen]
  · unfold Run
    cases listenOk with
    | false => simp [hstats, NewStats]
    | true =>
      simp only [if_true]
      rw [runLoop_count evs p, hstats]
      simp [NewStats]
  · intro q ev
    obtain ⟨ha, hd, hf, hs⟩ := recvIter_verdict q ev
    constructor
    · intro hv
      obtain ⟨t, ht⟩ := ha hv
      exact ⟨Since q.timer t, by rw [ht]; rfl⟩
    · intro hv
      cases hc : verdict q.isIPV6 q.identifier q.seqNum ev with
      | accepted => exact absurd hc hv
      | discarded => rw [hd hc]
      | failed => rw [hf hc]
      | stopped => rw [hs hc]

/-- C10 at a concrete input: an answered cycle followed by a cycle in which only a reply
with a foreign identifier and a malformed datagram arrive. -/
theorem rtts_length_eq_rxPackets_witness :
    ((Run freshSession true
        [.tick (answeredCycle 7 0),
          .tick { sendTime := 0, marshalOk := true, writes := [.ok],
                  recv := [echoReplyEvent 8 1 5,
                    .read .noError { typeByte := 0, body := none } 6] }]).stats.rtts.length
        : Int) =
      (Run freshSession true
        [.tick (answeredCycle 7 0),
          .tick { sendTime := 0, marshalOk := true, writes := [.ok],
                  recv := [echoReplyEvent 8 1 5,
                    .read .noError { typeByte := 0, body := none } 6] }]).stats.rxPackets ∧
      (Run freshSession true
        [.tick (answeredCycle 7 0),
          .tick { sendTime := 0, marshalOk := true, writes := [.ok],
                  recv := [echoReplyEvent 8 1 5,
                    .read .noError { typeByte := 0, body := none } 6] }]).stats.rtts.length =
        (if true = true then
          acceptedInRun freshSession.isIPV6 freshSession.identifier freshSession.seqNum
            [.tick (answeredCycle 7 0),
              .tick { sendTime := 0, marshalOk := true, writes := [.ok],
                      recv := [echoReplyEvent 8 1 5,
                        .read .noError { typeByte := 0, body := none } 6] }]
        else 0) ∧
      ∀ (q : Pinger) (ev : RecvEvent),
        (verdict q.isIPV6 q.identifier q.seqNum ev = Verdict.accepted →
          ∃ rtt, (recvIter q ev).1.stats =
            { q.stats with
              rtts := q.stats.rtts ++ [rtt]
              rxPackets := wrapInt (q.stats.rxPackets + 1) }) ∧
        (verdict q.isIPV6 q.identifier q.seqNum ev ≠ Verdict.accepted →
          (recvIter q ev).1 = q) :=
  rtts_length_eq_rxPackets "example.com" (some false) 7 0 freshSession (by decide) true
    [.tick (answeredCycle 7 0),
      .tick { sendTime := 0, marshalOk := true, writes := [.ok],
              recv := [echoReplyEvent 8 1 5,
                .read .noError { typeByte := 0, body := none } 6] }]
    (by decide)

/-! ## The sequence number -/

/-- C8, evaluated on the code: `Run` increments `seqNum` as a Go `int` and never reduces it
to 16 bits.  After 65536 answered cycles of the fresh session the sequence number is
65536, not `65536 mod 65536 = 0`; the next request carries the 16-bit sequence number 0 on
the wire, and the echo reply that carries it back is not accepted: the loop of `recvIcmp`
continues and the statistics are unchanged. -/
theorem seqNum_not_reduced_to_16_bits :
    (Run freshSession true (answeredTicks 7 0 65536)).seqNum = 65536 ∧
      (65536 : Int) % 65536 = 0 ∧
      wireSeq (Run freshSession true (answeredTicks 7 0 65536)).seqNum = 0 ∧
      recvIter (sendIcmp (Run freshSession true (answeredTicks 7 0 65536)) 0 true [.ok]).1
          (echoReplyEvent 7 0 Millisecond) =
        ((sendIcmp (Run freshSession true (answeredTicks 7 0 65536)) 0 true [.ok]).1,
          IterCtl.cont) := by
  obtain ⟨h1, _, _⟩ :=
    runLoop_answered 65536 0 freshSession rfl rfl (by decide)
  have hseq : (Run freshSession true (answeredTicks 7 0 65536)).seqNum = 65536 := by
    simp only [Run, if_true]
    exact h1
  refine ⟨hseq, by decide, by rw [hseq]; decide, ?_⟩
  apply recvIter_seq_mismatch
  rw [(sendIcmp_fields _ 0 true [.ok]).1, hseq]
  decide

end Ping
